import Mathlib

/-!
Shallow embedding of the `aiva-vrs-ts` VRS identifier library
(`src/src/generator.ts`): chromosome normalization, SHA-512-based
identifier generation, regex-based validation and parsing, and the
SQL routing helpers, together with theorems about them.
-/

namespace VrsTs

/-- 2 to the 64, the modulus for 64-bit machine arithmetic. -/
def w64 : Nat := 18446744073709551616

/-- Right rotation of a 64-bit word. -/
def rotr64 (n x : Nat) : Nat := ((x >>> n) ||| (x <<< (64 - n))) % w64

def bigSigma0 (x : Nat) : Nat := rotr64 28 x ^^^ rotr64 34 x ^^^ rotr64 39 x

def bigSigma1 (x : Nat) : Nat := rotr64 14 x ^^^ rotr64 18 x ^^^ rotr64 41 x

def smallSigma0 (x : Nat) : Nat := rotr64 1 x ^^^ rotr64 8 x ^^^ (x >>> 7)

def smallSigma1 (x : Nat) : Nat := rotr64 19 x ^^^ rotr64 61 x ^^^ (x >>> 6)

def chFn (x y z : Nat) : Nat := (x &&& y) ^^^ ((x ^^^ (w64 - 1)) &&& z)

def majFn (x y z : Nat) : Nat := (x &&& y) ^^^ (x &&& z) ^^^ (y &&& z)

/-- The 80 SHA-512 round constants. -/
def sha512K : List Nat := [
  4794697086780616226, 8158064640168781261, 13096744586834688815, 16840607885511220156,
  4131703408338449720, 6480981068601479193, 10538285296894168987, 12329834152419229976,
  15566598209576043074, 1334009975649890238, 2608012711638119052, 6128411473006802146,
  8268148722764581231, 9286055187155687089, 11230858885718282805, 13951009754708518548,
  16472876342353939154, 17275323862435702243, 1135362057144423861, 2597628984639134821,
  3308224258029322869, 5365058923640841347, 6679025012923562964, 8573033837759648693,
  10970295158949994411, 12119686244451234320, 12683024718118986047, 13788192230050041572,
  14330467153632333762, 15395433587784984357, 489312712824947311, 1452737877330783856,
  2861767655752347644, 3322285676063803686, 5560940570517711597, 5996557281743188959,
  7280758554555802590, 8532644243296465576, 9350256976987008742, 10552545826968843579,
  11727347734174303076, 12113106623233404929, 14000437183269869457, 14369950271660146224,
  15101387698204529176, 15463397548674623760, 17586052441742319658, 1182934255886127544,
  1847814050463011016, 2177327727835720531, 2830643537854262169, 3796741975233480872,
  4115178125766777443, 5681478168544905931, 6601373596472566643, 7507060721942968483,
  8399075790359081724, 8693463985226723168, 9568029438360202098, 10144078919501101548,
  10430055236837252648, 11840083180663258601, 13761210420658862357, 14299343276471374635,
  14566680578165727644, 15097957966210449927, 16922976911328602910, 17689382322260857208,
  500013540394364858, 748580250866718886, 1242879168328830382, 1977374033974150939,
  2944078676154940804, 3659926193048069267, 4368137639120453308, 4836135668995329356,
  5532061633213252278, 6448918945643986474, 6902733635092675308, 7801388544844847127]

/-- The eight 64-bit words of SHA-512 working state. -/
structure Hash8 where
  a : Nat
  b : Nat
  c : Nat
  d : Nat
  e : Nat
  f : Nat
  g : Nat
  h : Nat

/-- The SHA-512 initial hash value. -/
def initHash : Hash8 :=
  ⟨7640891576956012808, 13503953896175478587, 4354685564936845355, 11912009170470909681,
   5840696475078001361, 11170449401992604703, 2270897969802886507, 6620516959819538809⟩

/-- One step of the SHA-512 message-schedule extension: append word `W[k]`
computed from `W[k-2]`, `W[k-7]`, `W[k-15]`, `W[k-16]`. -/
def scheduleStep (ws : List Nat) : List Nat :=
  let k := ws.length
  ws ++ [(ws.getD (k - 16) 0 + smallSigma0 (ws.getD (k - 15) 0) +
          ws.getD (k - 7) 0 + smallSigma1 (ws.getD (k - 2) 0)) % w64]

/-- Iterate the message-schedule extension `n` times. -/
def extendSchedule : Nat → List Nat → List Nat
  | 0, ws => ws
  | n + 1, ws => extendSchedule n (scheduleStep ws)

/-- One SHA-512 compression round, consuming a (schedule word, round constant) pair. -/
def roundStep (st : Hash8) (wk : Nat × Nat) : Hash8 :=
  let t1 := (st.h + bigSigma1 st.e + chFn st.e st.f st.g + wk.2 + wk.1) % w64
  let t2 := (bigSigma0 st.a + majFn st.a st.b st.c) % w64
  ⟨(t1 + t2) % w64, st.a, st.b, st.c, (st.d + t1) % w64, st.e, st.f, st.g⟩

/-- Big-endian interpretation of a byte list as one number. -/
def beWord (bs : List Nat) : Nat := bs.foldl (fun acc b => acc * 256 + b) 0

/-- Split a list into consecutive chunks of `n` elements (fuel-driven recursion). -/
def chunkList (n : Nat) : Nat → List Nat → List (List Nat)
  | 0, _ => []
  | _ + 1, [] => []
  | fuel + 1, x :: xs => (x :: xs).take n :: chunkList n fuel ((x :: xs).drop n)

/-- Process one 128-byte SHA-512 block. -/
def processBlock (st : Hash8) (block : List Nat) : Hash8 :=
  let ws0 := (chunkList 8 16 block).map beWord
  let ws := extendSchedule 64 ws0
  let t := (ws.zip sha512K).foldl roundStep st
  ⟨(st.a + t.a) % w64, (st.b + t.b) % w64, (st.c + t.c) % w64, (st.d + t.d) % w64,
   (st.e + t.e) % w64, (st.f + t.f) % w64, (st.g + t.g) % w64, (st.h + t.h) % w64⟩

/-- The eight big-endian bytes of a 64-bit word. -/
def wordBytes (x : Nat) : List Nat :=
  [x / 72057594037927936 % 256, x / 281474976710656 % 256, x / 1099511627776 % 256,
   x / 4294967296 % 256, x / 16777216 % 256, x / 65536 % 256, x / 256 % 256, x % 256]

/-- The `n` big-endian bytes of a number. -/
def natBeBytes : Nat → Nat → List Nat
  | 0, _ => []
  | n + 1, v => natBeBytes n (v / 256) ++ [v % 256]

/-- SHA-512 padding for a message of `len` bytes: a 0x80 byte, zeros up to
112 mod 128, then the 16-byte big-endian bit length. -/
def padBytes (len : Nat) : List Nat :=
  128 :: List.replicate ((128 + 112 - ((len + 1) % 128)) % 128) 0 ++ natBeBytes 16 (8 * len)

/-- SHA-512 of a byte list, as the 64-byte digest. -/
def sha512 (msg : List Nat) : List Nat :=
  let padded := msg ++ padBytes msg.length
  let fin := (chunkList 128 padded.length padded).foldl processBlock initHash
  wordBytes fin.a ++ wordBytes fin.b ++ wordBytes fin.c ++ wordBytes fin.d ++
  wordBytes fin.e ++ wordBytes fin.f ++ wordBytes fin.g ++ wordBytes fin.h

/-- UTF-8 encoding of one character. -/
def utf8Char (c : Char) : List Nat :=
  let n := c.toNat
  if n < 128 then [n]
  else if n < 2048 then [192 + n / 64, 128 + n % 64]
  else if n < 65536 then [224 + n / 4096, 128 + n / 64 % 64, 128 + n % 64]
  else [240 + n / 262144, 128 + n / 4096 % 64, 128 + n / 64 % 64, 128 + n % 64]

/-- UTF-8 byte representation of a string (the bytes Node hashes for a JS string). -/
def utf8Bytes (s : String) : List Nat := (s.data.map utf8Char).flatten

/-- The standard base64 alphabet, in index order. -/
def b64Chars : List Char :=
  ['A', 'B', 'C', 'D', 'E', 'F', 'G', 'H', 'I', 'J', 'K', 'L', 'M',
   'N', 'O', 'P', 'Q', 'R', 'S', 'T', 'U', 'V', 'W', 'X', 'Y', 'Z',
   'a', 'b', 'c', 'd', 'e', 'f', 'g', 'h', 'i', 'j', 'k', 'l', 'm',
   'n', 'o', 'p', 'q', 'r', 's', 't', 'u', 'v', 'w', 'x', 'y', 'z',
   '0', '1', '2', '3', '4', '5', '6', '7', '8', '9', '+', '/']

/-- The base64 character at index `i`. -/
def b64Char (i : Nat) : Char := b64Chars.getD i 'A'

/-- The URL-safe base64 alphabet `[A-Za-z0-9_-]`: the image of the standard
alphabet under the replacements of `+` by `-` and `/` by `_`. -/
def urlSafeAlphabet : List Char :=
  ['A', 'B', 'C', 'D', 'E', 'F', 'G', 'H', 'I', 'J', 'K', 'L', 'M',
   'N', 'O', 'P', 'Q', 'R', 'S', 'T', 'U', 'V', 'W', 'X', 'Y', 'Z',
   'a', 'b', 'c', 'd', 'e', 'f', 'g', 'h', 'i', 'j', 'k', 'l', 'm',
   'n', 'o', 'p', 'q', 'r', 's', 't', 'u', 'v', 'w', 'x', 'y', 'z',
   '0', '1', '2', '3', '4', '5', '6', '7', '8', '9', '-', '_']

/-- Standard base64 encoding of a byte list, with `=` padding. -/
def b64EncodeList : List Nat → List Char
  | b1 :: b2 :: b3 :: rest =>
      b64Char (b1 / 4) :: b64Char (b1 % 4 * 16 + b2 / 16) ::
      b64Char (b2 % 16 * 4 + b3 / 64) :: b64Char (b3 % 64) :: b64EncodeList rest
  | [b1, b2] => [b64Char (b1 / 4), b64Char (b1 % 4 * 16 + b2 / 16), b64Char (b2 % 16 * 4), '=']
  | [b1] => [b64Char (b1 / 4), b64Char (b1 % 4 * 16), '=', '=']
  | [] => []

/-- The URL-safe postprocessing from `generateVrsId`: replace each `+` by `-`,
each `/` by `_`, and strip the trailing run of `=` padding. -/
def makeUrlSafe (l : List Char) : List Char :=
  (((l.map fun c => if c = '+' then '-' else c).map
    fun c => if c = '/' then '_' else c).reverse.dropWhile (fun c => c = '=')).reverse

/-- Strip a leading literal `chr` from a character list, when present: the
model of `chrom.startsWith('chr')` followed by `chrom.substring(3)`. -/
def stripChr : List Char → List Char
  | 'c' :: 'h' :: 'r' :: rest => rest
  | l => l

/-- Function `normalizeChromosome` from `generator.ts`: strip a (case-sensitive) `chr`
head, then apply the exact-match substitutions `M`, `MT` to `MT` and `Un` to `UN`. -/
def normalizeChromosome (chrom : String) : String :=
  let stripped := String.mk (stripChr chrom.data)
  if stripped = "M" then "MT"
  else if stripped = "MT" then "MT"
  else if stripped = "Un" then "UN"
  else stripped

/-- Function `generateVrsId` from `generator.ts`. The position is carried in its textual
form (a JS template literal stringifies a numeric position with default decimal
formatting). The `assembly` parameter is declared but never read, as in the source. -/
def generateVrsId (chrom pos ref alt : String) (assembly : String := "GRCh38") : String :=
  let normalizedChrom := normalizeChromosome chrom
  if alt = "*" ∨ ref = "*" then
    "ga4gh:VA:SPECIAL:" ++ normalizedChrom ++ "-" ++ pos ++ "-" ++ ref ++ "-" ++ alt
  else
    let data := normalizedChrom ++ ":" ++ pos ++ ":" ++ ref ++ ":" ++ alt
    let hash := sha512 (utf8Bytes data)
    let truncatedHash := hash.take 24
    let b64Digest := String.mk (makeUrlSafe (b64EncodeList truncatedHash))
    "ga4gh:VA:" ++ normalizedChrom ++ ":" ++ b64Digest

/-- Whether a character can be matched by an (unflagged) JS regex dot:
anything but the line terminators LF, CR, U+2028, U+2029. -/
def notLineTerm (c : Char) : Bool :=
  !(c == '\n' || c == '\r' || c == Char.ofNat 8232 || c == Char.ofNat 8233)

/-- Split a character list at its first colon; `none` when there is no colon. -/
def splitOnFirstColon : List Char → Option (List Char × List Char)
  | [] => none
  | c :: cs =>
    if c = ':' then some ([], cs)
    else
      match splitOnFirstColon cs with
      | none => none
      | some (pre, rest) => some (c :: pre, rest)

/-- Match the literal head `ga4gh:VA:` of the regex
`^ga4gh:VA:([^:]+):(.+)$` and return the remaining characters. -/
def stripVrsHead : List Char → Option (List Char)
  | 'g' :: 'a' :: '4' :: 'g' :: 'h' :: ':' :: 'V' :: 'A' :: ':' :: rest => some rest
  | _ => none

/-- The JS regex `^ga4gh:VA:([^:]+):(.+)$` as a matcher returning the two
capture groups: the chromosome (the maximal colon-free run after the head,
which must end at a colon) and the tail (everything after that colon, which
must be non-empty and free of line terminators, since `.` matches none). -/
def matchVrsId (s : String) : Option (String × String) :=
  (stripVrsHead s.data).bind fun rest =>
    (splitOnFirstColon rest).bind fun pr =>
      if pr.1 ≠ [] ∧ pr.2 ≠ [] ∧ pr.2.all notLineTerm then
        some (String.mk pr.1, String.mk pr.2)
      else none

/-- Function `isValidVrsId` from `generator.ts`: false on the empty (falsy) string,
otherwise whether the regex matches. -/
def isValidVrsId (vrsId : String) : Bool :=
  if vrsId = "" then false
  else (matchVrsId vrsId).isSome

/-- The record returned by `parseVrsId`. -/
structure ParsedVrsId where
  chromosome : String
  digest : String
  type : String
  deriving DecidableEq, Repr

/-- Function `parseVrsId` from `generator.ts`; a thrown `Invalid VRS ID` (or the
unreachable `Failed to parse`) error is modelled as `none`. -/
def parseVrsId (vrsId : String) : Option ParsedVrsId :=
  if isValidVrsId vrsId = false then none
  else (matchVrsId vrsId).bind fun pr => some ⟨pr.1, pr.2, "VA"⟩

/-- Function `getChromosomeFromVrsId` from `generator.ts`. -/
def getChromosomeFromVrsId (vrsId : String) : Option String :=
  (parseVrsId vrsId).map ParsedVrsId.chromosome

/-- JS `String.prototype.toLowerCase`, restricted to the ASCII mapping. -/
def jsToLowerCase (s : String) : String := String.mk (s.data.map Char.toLower)

/-- Function `getSqlTableForVariant` from `generator.ts`. -/
def getSqlTableForVariant (vrsId : String) : Option String :=
  (getChromosomeFromVrsId vrsId).map (fun chrom => "variants_chr" ++ jsToLowerCase chrom)

/-- The named parameters returned by `buildVariantQuery`. -/
structure QueryParams where
  vrsId : String
  chromosome : String
  deriving DecidableEq, Repr

/-- The record returned by `buildVariantQuery`. -/
structure VariantQuery where
  query : String
  params : QueryParams
  deriving DecidableEq, Repr

/-- Function `buildVariantQuery` from `generator.ts`: the SQL template literal with its
exact whitespace, plus the two named parameters. -/
def buildVariantQuery (vrsId : String) : Option VariantQuery :=
  (getSqlTableForVariant vrsId).bind fun tableName =>
    (getChromosomeFromVrsId vrsId).bind fun chromosome =>
      some ⟨"\n    SELECT *\n    FROM public." ++ tableName ++
            "\n    WHERE id = @vrsId\n    AND chromosome = @chromosome\n  ",
            ⟨vrsId, chromosome⟩⟩

/-! Helper lemmas about the matcher. -/

/-- The character list of the literal head. -/
theorem dataVrsHead : "ga4gh:VA:".data = ['g', 'a', '4', 'g', 'h', ':', 'V', 'A', ':'] := rfl

/-- The character list of a lone colon. -/
theorem dataColon : ":".data = [':'] := rfl

/-- Lemma: `stripVrsHead` succeeds on a list that carries the literal head. -/
theorem stripVrsHead_cons (l : List Char) :
    stripVrsHead ('g' :: 'a' :: '4' :: 'g' :: 'h' :: ':' :: 'V' :: 'A' :: ':' :: l) = some l := rfl

/-- Lemma: `splitOnFirstColon` splits exactly at an exhibited first colon. -/
theorem splitOnFirstColon_append (pre rest : List Char) (h : ∀ c ∈ pre, c ≠ ':') :
    splitOnFirstColon (pre ++ ':' :: rest) = some (pre, rest) := by
  induction pre with
  | nil => simp [splitOnFirstColon]
  | cons c cs ih =>
    have hc : c ≠ ':' := h c (by simp)
    have ih' := ih (fun x hx => h x (by simp [hx]))
    simp [splitOnFirstColon, hc, ih']

/-- A successful `splitOnFirstColon` decomposes its input, with a colon-free head. -/
theorem splitOnFirstColon_sound (l pre rest : List Char)
    (h : splitOnFirstColon l = some (pre, rest)) :
    l = pre ++ ':' :: rest ∧ ∀ c ∈ pre, c ≠ ':' := by
  induction l generalizing pre rest with
  | nil => simp [splitOnFirstColon] at h
  | cons c cs ih =>
    by_cases hc : c = ':'
    · subst hc
      simp [splitOnFirstColon] at h
      obtain ⟨h1, h2⟩ := h
      subst h1; subst h2
      simp
    · simp only [splitOnFirstColon, if_neg hc] at h
      cases hsp : splitOnFirstColon cs with
      | none => rw [hsp] at h; simp at h
      | some pr =>
        obtain ⟨b, a⟩ := pr
        rw [hsp] at h
        simp only [Option.some.injEq, Prod.mk.injEq] at h
        obtain ⟨h1, h2⟩ := h
        obtain ⟨hb, hnc⟩ := ih b a hsp
        subst h2
        constructor
        · rw [← h1]; simp [hb]
        · intro x hx
          rcases List.mem_cons.mp (h1 ▸ hx) with hx1 | hx2
          · rw [hx1]; exact hc
          · exact hnc x hx2

/-- A successful `stripVrsHead` exhibits the literal head. -/
theorem stripVrsHead_sound (l rest : List Char) (h : stripVrsHead l = some rest) :
    l = 'g' :: 'a' :: '4' :: 'g' :: 'h' :: ':' :: 'V' :: 'A' :: ':' :: rest := by
  unfold stripVrsHead at h
  split at h
  · simp at h; simp [h]
  · simp at h

/-- Building a well-shaped identifier makes the regex match with the expected groups. -/
theorem matchVrsId_build (c d : String) (hc : c.data ≠ []) (hcol : ∀ ch ∈ c.data, ch ≠ ':')
    (hd : d.data ≠ []) (hterm : d.data.all notLineTerm = true) :
    matchVrsId ("ga4gh:VA:" ++ c ++ ":" ++ d) = some (c, d) := by
  have hdata : ("ga4gh:VA:" ++ c ++ ":" ++ d).data
      = 'g' :: 'a' :: '4' :: 'g' :: 'h' :: ':' :: 'V' :: 'A' :: ':' :: (c.data ++ ':' :: d.data) := by
    simp [String.data_append, dataVrsHead, dataColon]
  unfold matchVrsId
  rw [hdata, stripVrsHead_cons]
  simp only [Option.some_bind]
  rw [splitOnFirstColon_append c.data d.data hcol]
  simp only [Option.some_bind]
  rw [if_pos ⟨hc, hd, hterm⟩]

/-- A successful regex match decomposes the input into head, colon-free
chromosome, colon, and a non-empty line-terminator-free tail. -/
theorem matchVrsId_sound (s : String) (c d : String) (h : matchVrsId s = some (c, d)) :
    s = "ga4gh:VA:" ++ c ++ ":" ++ d ∧ c.data ≠ [] ∧ (∀ ch ∈ c.data, ch ≠ ':') ∧
    d.data ≠ [] ∧ d.data.all notLineTerm = true := by
  unfold matchVrsId at h
  cases hst : stripVrsHead s.data with
  | none => rw [hst] at h; simp at h
  | some rest =>
    rw [hst] at h
    simp only [Option.some_bind] at h
    cases hsp : splitOnFirstColon rest with
    | none => rw [hsp] at h; simp at h
    | some pr =>
      obtain ⟨chromPart, tailPart⟩ := pr
      rw [hsp] at h
      simp only [Option.some_bind] at h
      by_cases hcond : chromPart ≠ [] ∧ tailPart ≠ [] ∧ tailPart.all notLineTerm = true
      · rw [if_pos hcond] at h
        simp only [Option.some.injEq, Prod.mk.injEq] at h
        obtain ⟨hc1, hd1⟩ := h
        obtain ⟨hrest, hnc⟩ := splitOnFirstColon_sound rest chromPart tailPart hsp
        have hsdata := stripVrsHead_sound s.data rest hst
        have hcd : c.data = chromPart := by rw [← hc1]
        have hdd : d.data = tailPart := by rw [← hd1]
        refine ⟨?_, ?_, ?_, ?_, ?_⟩
        · apply String.ext
          rw [hsdata, hrest]
          simp [String.data_append, dataVrsHead, dataColon, hcd, hdd]
        · rw [hcd]; exact hcond.1
        · rw [hcd]; exact hnc
        · rw [hdd]; exact hcond.2.1
        · rw [hdd]; exact hcond.2.2
      · rw [if_neg hcond] at h; simp at h

/-- The regex never matches the empty string. -/
theorem matchVrsId_none_empty : matchVrsId "" = none := rfl

/-- A matched identifier is valid. -/
theorem isValid_of_match (s : String) (c d : String) (h : matchVrsId s = some (c, d)) :
    isValidVrsId s = true := by
  unfold isValidVrsId
  by_cases hs : s = ""
  · rw [hs] at h; rw [matchVrsId_none_empty] at h; simp at h
  · rw [if_neg hs, h]; rfl

/-- Validity is exactly a successful regex match. -/
theorem isValid_iff_match (s : String) :
    isValidVrsId s = true ↔ ∃ c d, matchVrsId s = some (c, d) := by
  constructor
  · intro h
    unfold isValidVrsId at h
    by_cases hs : s = ""
    · rw [if_pos hs] at h; simp at h
    · rw [if_neg hs] at h
      cases hm : matchVrsId s with
      | none => rw [hm] at h; simp at h
      | some pr => exact ⟨pr.1, pr.2, by simp [hm]⟩
  · rintro ⟨c, d, h⟩; exact isValid_of_match s c d h

/-- Lemma: `parseVrsId` fails exactly on the identifiers `isValidVrsId` rejects. -/
theorem parse_none_iff (s : String) : parseVrsId s = none ↔ isValidVrsId s = false := by
  unfold parseVrsId
  cases hv : isValidVrsId s with
  | false => simp
  | true =>
    simp only [Bool.true_eq_false, if_false]
    obtain ⟨c, d, hm⟩ := (isValid_iff_match s).mp hv
    rw [hm]
    simp

/-- A successful `parseVrsId` is exactly a successful match, with the constant type tag. -/
theorem parse_some_iff (s : String) (pr : ParsedVrsId) :
    parseVrsId s = some pr ↔ matchVrsId s = some (pr.chromosome, pr.digest) ∧ pr.type = "VA" := by
  unfold parseVrsId
  cases hv : isValidVrsId s with
  | false =>
    simp only [if_pos rfl]
    constructor
    · intro h; simp at h
    · rintro ⟨hm, _⟩
      have := isValid_of_match s pr.chromosome pr.digest hm
      rw [hv] at this; simp at this
  | true =>
    simp only [Bool.true_eq_false, if_false]
    obtain ⟨c, d, hm⟩ := (isValid_iff_match s).mp hv
    rw [hm]
    simp only [Option.some_bind, Option.some.injEq]
    constructor
    · intro h
      subst h
      exact ⟨rfl, rfl⟩
    · rintro ⟨hm2, ht⟩
      simp only [Prod.mk.injEq] at hm2
      obtain ⟨pc, pd⟩ := hm2
      cases pr with
      | mk pc2 pd2 pt2 => simp_all

/-! Helper lemmas about the digest pipeline. -/

/-- Every base64 output character lies in the standard alphabet
(the out-of-range default is `A`, itself in the alphabet). -/
theorem b64Char_mem (i : Nat) : b64Char i ∈ b64Chars := by
  unfold b64Char
  rcases h : b64Chars[i]? with _ | c
  · simp [List.getD, h]
    decide
  · have hm : c ∈ b64Chars := List.getElem?_mem h
    simp [List.getD, h, hm]

/-- On inputs of length `3 * n`, base64 yields `4 * n` characters, all from
the standard alphabet (no `=` padding arises). -/
theorem b64Encode_three (n : Nat) : ∀ l : List Nat, l.length = 3 * n →
    (b64EncodeList l).length = 4 * n ∧ ∀ c ∈ b64EncodeList l, c ∈ b64Chars := by
  induction n with
  | zero =>
    intro l hl
    have hnil : l = [] := List.length_eq_zero.mp (by omega)
    subst hnil
    simp [b64EncodeList]
  | succ n ih =>
    intro l hl
    rcases l with _ | ⟨b1, _ | ⟨b2, _ | ⟨b3, rest⟩⟩⟩
    · simp only [List.length_nil] at hl; omega
    · simp only [List.length_cons, List.length_nil] at hl; omega
    · simp only [List.length_cons, List.length_nil] at hl; omega
    · have hr : rest.length = 3 * n := by
        simp only [List.length_cons] at hl; omega
      obtain ⟨ihl, ihm⟩ := ih rest hr
      constructor
      · simp [b64EncodeList, ihl]; omega
      · intro c hc
        simp only [b64EncodeList, List.mem_cons] at hc
        rcases hc with h | h | h | h | h
        · rw [h]; exact b64Char_mem _
        · rw [h]; exact b64Char_mem _
        · rw [h]; exact b64Char_mem _
        · rw [h]; exact b64Char_mem _
        · exact ihm c h

/-- The two URL-safe replacements send the standard alphabet into the
URL-safe alphabet and never produce `=`. -/
theorem replMapsAlphabet : ∀ c ∈ b64Chars,
    (if (if c = '+' then '-' else c) = '/' then '_' else (if c = '+' then '-' else c))
      ∈ urlSafeAlphabet ∧
    (if (if c = '+' then '-' else c) = '/' then '_' else (if c = '+' then '-' else c)) ≠ '=' := by
  decide

/-- Lemma: `dropWhile` is the identity on a list none of whose elements satisfy the test. -/
theorem dropWhile_eq_self_of (p : Char → Bool) (l : List Char) (h : ∀ c ∈ l, p c = false) :
    l.dropWhile p = l := by
  cases l with
  | nil => rfl
  | cons x xs =>
    have hx : p x = false := h x (by simp)
    simp [List.dropWhile_cons, hx]

/-- On alphabet-only input, `makeUrlSafe` keeps the length and lands in the
URL-safe alphabet. -/
theorem makeUrlSafe_spec (l : List Char) (h : ∀ c ∈ l, c ∈ b64Chars) :
    (makeUrlSafe l).length = l.length ∧ ∀ c ∈ makeUrlSafe l, c ∈ urlSafeAlphabet := by
  unfold makeUrlSafe
  have hmem : ∀ c ∈ (l.map fun c => if c = '+' then '-' else c).map
      (fun c => if c = '/' then '_' else c), c ∈ urlSafeAlphabet ∧ c ≠ '=' := by
    intro c hc
    simp only [List.mem_map] at hc
    obtain ⟨a, ⟨b, hb, hba⟩, hac⟩ := hc
    have := replMapsAlphabet b (h b hb)
    rw [← hba] at hac
    rw [← hac]
    exact this
  have hdrop : ((l.map fun c => if c = '+' then '-' else c).map
      (fun c => if c = '/' then '_' else c)).reverse.dropWhile (fun c => c = '=') =
      ((l.map fun c => if c = '+' then '-' else c).map
      (fun c => if c = '/' then '_' else c)).reverse := by
    apply dropWhile_eq_self_of
    intro c hc
    rw [List.mem_reverse] at hc
    have := (hmem c hc).2
    simp [this]
  rw [hdrop]
  constructor
  · simp
  · intro c hc
    rw [List.reverse_reverse] at hc
    exact (hmem c hc).1

/-- A SHA-512 digest always has 64 bytes. -/
theorem sha512_length (msg : List Nat) : (sha512 msg).length = 64 := by
  unfold sha512
  simp [wordBytes]

/-- The digest segment built from any message: 32 characters, all URL-safe. -/
theorem digest_spec (msg : List Nat) :
    (makeUrlSafe (b64EncodeList ((sha512 msg).take 24))).length = 32 ∧
    ∀ c ∈ makeUrlSafe (b64EncodeList ((sha512 msg).take 24)), c ∈ urlSafeAlphabet := by
  have h64 : (sha512 msg).length = 64 := sha512_length msg
  have h24 : ((sha512 msg).take 24).length = 3 * 8 := by
    rw [List.length_take, h64]
    omega
  obtain ⟨hl, hm⟩ := b64Encode_three 8 _ h24
  obtain ⟨hl2, hm2⟩ := makeUrlSafe_spec _ hm
  exact ⟨by rw [hl2, hl], hm2⟩

/-- No URL-safe alphabet character is a line terminator. -/
theorem urlAlphabet_notLineTerm : ∀ c ∈ urlSafeAlphabet, notLineTerm c = true := by decide

/-- No URL-safe alphabet character is a colon. -/
theorem urlAlphabet_ne_colon : ∀ c ∈ urlSafeAlphabet, c ≠ ':' := by decide

/-! Helper lemmas about `generateVrsId`. -/

/-- The digest segment `generateVrsId` computes for a non-wildcard variant. -/
theorem generate_nonwild (chrom pos ref alt assembly : String)
    (href : ref ≠ "*") (halt : alt ≠ "*") :
    generateVrsId chrom pos ref alt assembly =
      "ga4gh:VA:" ++ normalizeChromosome chrom ++ ":" ++
        String.mk (makeUrlSafe (b64EncodeList ((sha512 (utf8Bytes
          (normalizeChromosome chrom ++ ":" ++ pos ++ ":" ++ ref ++ ":" ++ alt))).take 24))) := by
  unfold generateVrsId
  rw [if_neg (by simp [href, halt])]

/-- The special form `generateVrsId` returns for a wildcard variant. -/
theorem generate_wild (chrom pos ref alt assembly : String) (h : ref = "*" ∨ alt = "*") :
    generateVrsId chrom pos ref alt assembly =
      "ga4gh:VA:SPECIAL:" ++ normalizeChromosome chrom ++ "-" ++ pos ++ "-" ++ ref ++ "-" ++ alt := by
  unfold generateVrsId
  rw [if_pos (by tauto)]

/-- Lemma: `generateVrsId` depends on the raw chromosome only through `normalizeChromosome`. -/
theorem generate_congr (c1 c2 p r a s : String)
    (h : normalizeChromosome c1 = normalizeChromosome c2) :
    generateVrsId c1 p r a s = generateVrsId c2 p r a s := by
  unfold generateVrsId
  rw [h]

/-- A string cannot be valid when the regex fails on it. -/
theorem isValid_eq_false_of_match_none (s : String) (h : matchVrsId s = none) :
    isValidVrsId s = false := by
  unfold isValidVrsId
  split
  · rfl
  · rw [h]; rfl

/-- The character list of the head followed by an empty chromosome slot. -/
theorem dataVrsHeadColon : "ga4gh:VA::".data
    = ['g', 'a', '4', 'g', 'h', ':', 'V', 'A', ':', ':'] := rfl

/-- The regex rejects an identifier whose chromosome slot is empty. -/
theorem matchVrsId_empty_chrom (d : String) : matchVrsId ("ga4gh:VA::" ++ d) = none := by
  have hdata : ("ga4gh:VA::" ++ d).data
      = 'g' :: 'a' :: '4' :: 'g' :: 'h' :: ':' :: 'V' :: 'A' :: ':' :: (':' :: d.data) := by
    simp [String.data_append, dataVrsHeadColon]
  unfold matchVrsId
  rw [hdata, stripVrsHead_cons]
  simp [splitOnFirstColon]

/-- Lemma: `getChromosomeFromVrsId` fails exactly where `parseVrsId` does. -/
theorem getChrom_none_iff (s : String) :
    getChromosomeFromVrsId s = none ↔ parseVrsId s = none := by
  unfold getChromosomeFromVrsId
  cases hp : parseVrsId s <;> simp

/-- Lemma: `getSqlTableForVariant` fails exactly where `parseVrsId` does. -/
theorem getSqlTable_none_iff (s : String) :
    getSqlTableForVariant s = none ↔ parseVrsId s = none := by
  unfold getSqlTableForVariant
  rw [← getChrom_none_iff]
  cases hp : getChromosomeFromVrsId s <;> simp

/-- Lemma: `buildVariantQuery` fails exactly where `parseVrsId` does. -/
theorem buildq_none_iff (s : String) :
    buildVariantQuery s = none ↔ parseVrsId s = none := by
  unfold buildVariantQuery
  cases hp : parseVrsId s with
  | none =>
    have h1 : getSqlTableForVariant s = none := (getSqlTable_none_iff s).mpr hp
    simp [h1]
  | some pr =>
    have h1 : getChromosomeFromVrsId s = some pr.chromosome := by
      simp [getChromosomeFromVrsId, hp]
    have h2 : getSqlTableForVariant s = some ("variants_chr" ++ jsToLowerCase pr.chromosome) := by
      simp [getSqlTableForVariant, h1]
    simp [h1, h2, hp]

/-- A middle factor of a three-part concatenation is an infix of the whole. -/
theorem substr_infix (q a b c : String) (h : q = a ++ b ++ c) : b.data <:+: q.data := by
  rw [h]
  exact ⟨a.data, c.data, by simp [String.data_append]⟩

set_option maxRecDepth 10000

/-- The character list of an explicitly constructed string. -/
theorem data_of_mk (l : List Char) : (String.mk l).data = l := rfl

/-- Non-wildcard generation decomposes into head, canonical chromosome,
colon, and a 32-character URL-safe digest. -/
theorem generate_decomp (c p r a s : String) (hr : r ≠ "*") (ha : a ≠ "*") :
    ∃ d : String, generateVrsId c p r a s = "ga4gh:VA:" ++ normalizeChromosome c ++ ":" ++ d ∧
      d.data.length = 32 ∧ ∀ ch ∈ d.data, ch ∈ urlSafeAlphabet := by
  obtain ⟨hl, hm⟩ := digest_spec (utf8Bytes
    (normalizeChromosome c ++ ":" ++ p ++ ":" ++ r ++ ":" ++ a))
  refine ⟨String.mk (makeUrlSafe (b64EncodeList ((sha512 (utf8Bytes
    (normalizeChromosome c ++ ":" ++ p ++ ":" ++ r ++ ":" ++ a))).take 24))),
    generate_nonwild c p r a s hr ha, ?_, ?_⟩
  · rw [data_of_mk]
    exact hl
  · rw [data_of_mk]
    exact hm

/-! The claims. -/

/-- C1: on the concrete non-wildcard input (`chr7`, 55174772,
`GGAATTAAGAGAAGC`, empty alt), `generateVrsId` canonicalizes the chromosome
to `7`, hashes the payload `7:55174772:GGAATTAAGAGAAGC:` with SHA-512,
truncates to 24 bytes, URL-safe-base64-encodes, and returns exactly
`ga4gh:VA:7:v9TQXvNOQeG1vNRVJCWlD_a1tRf_m2AP`. -/
theorem claim1_generate_concrete :
    normalizeChromosome "chr7" = "7" ∧
    generateVrsId "chr7" "55174772" "GGAATTAAGAGAAGC" "" =
      "ga4gh:VA:7:" ++ String.mk (makeUrlSafe (b64EncodeList
        ((sha512 (utf8Bytes "7:55174772:GGAATTAAGAGAAGC:")).take 24))) ∧
    generateVrsId "chr7" "55174772" "GGAATTAAGAGAAGC" "" =
      "ga4gh:VA:7:v9TQXvNOQeG1vNRVJCWlD_a1tRf_m2AP" := by
  refine ⟨by decide, by decide, by decide⟩

/-- C2: `generateVrsId` is invariant under the chromosome spellings
`chr7`/`7`, `chrM`/`MT`, `chrUn`/`Un` for every position and allele pair,
because `normalizeChromosome` strips a lowercase `chr` and applies the
substitutions `M` to `MT`, `MT` to `MT`, `Un` to `UN`; `ChrX` is not stripped. -/
theorem claim2_chromosome_equiv :
    (∀ p r a, generateVrsId "chr7" p r a = generateVrsId "7" p r a) ∧
    (∀ p r a, generateVrsId "chrM" p r a = generateVrsId "MT" p r a) ∧
    (∀ p r a, generateVrsId "chrUn" p r a = generateVrsId "Un" p r a) ∧
    normalizeChromosome "ChrX" = "ChrX" := by
  refine ⟨?_, ?_, ?_, by decide⟩ <;>
    exact fun p r a => generate_congr _ _ p r a _ (by decide)

/-- C3 counterexample: for the wildcard input (`chr7`, 1, `*`, `A`) the claim
fails: `parse` recovers the chromosome `SPECIAL`, not the canonical
chromosome `7` used to build the identifier. -/
theorem claim3_roundtrip_cex :
    generateVrsId "chr7" "1" "*" "A" = "ga4gh:VA:SPECIAL:7-1-*-A" ∧
    normalizeChromosome "chr7" = "7" ∧
    getChromosomeFromVrsId (generateVrsId "chr7" "1" "*" "A") = some "SPECIAL" ∧
    getChromosomeFromVrsId (generateVrsId "chr7" "1" "*" "A")
      ≠ some (normalizeChromosome "chr7") := by
  refine ⟨by decide, by decide, by decide, by decide⟩

/-- C3 amended: for non-wildcard alleles and a canonical chromosome that is
non-empty and colon-free, the generated identifier is valid and `parseVrsId`
recovers the canonical chromosome. -/
theorem claim3_roundtrip_amended (c p r a : String) (hr : r ≠ "*") (ha : a ≠ "*")
    (hne : normalizeChromosome c ≠ "")
    (hcol : ∀ ch ∈ (normalizeChromosome c).data, ch ≠ ':') :
    isValidVrsId (generateVrsId c p r a) = true ∧
    ∃ pr, parseVrsId (generateVrsId c p r a) = some pr ∧
      pr.chromosome = normalizeChromosome c := by
  obtain ⟨d, hgen, hdl, hdm⟩ := generate_decomp c p r a "GRCh38" hr ha
  have hdne : d.data ≠ [] := by
    intro h0
    rw [h0] at hdl
    simp at hdl
  have hterm : d.data.all notLineTerm = true := by
    rw [List.all_eq_true]
    intro ch hch
    exact urlAlphabet_notLineTerm ch (hdm ch hch)
  have hcne : (normalizeChromosome c).data ≠ [] := by
    intro h0
    exact hne (String.ext h0)
  have hmatch := matchVrsId_build (normalizeChromosome c) d hcne hcol hdne hterm
  rw [hgen]
  exact ⟨isValid_of_match _ _ _ hmatch,
    ⟨normalizeChromosome c, d, "VA"⟩, (parse_some_iff _ _).mpr ⟨hmatch, rfl⟩, rfl⟩

/-- C3 amended, witness at the concrete C1 input. -/
theorem claim3_roundtrip_amended_witness :
    isValidVrsId (generateVrsId "chr7" "55174772" "GGAATTAAGAGAAGC" "") = true ∧
    ∃ pr, parseVrsId (generateVrsId "chr7" "55174772" "GGAATTAAGAGAAGC" "") = some pr ∧
      pr.chromosome = normalizeChromosome "chr7" :=
  claim3_roundtrip_amended "chr7" "55174772" "GGAATTAAGAGAAGC" ""
    (by decide) (by decide) (by decide) (by decide)

/-- C4: `isValidVrsId` is total and rejects the empty string; `parseVrsId`
fails exactly where `isValidVrsId` is false, and on success returns the
colon-free first segment after the head as chromosome, everything after the
third colon as digest, and the constant type `VA`; the derived functions
fail on exactly the same inputs. -/
theorem claim4_validation_contracts :
    isValidVrsId "" = false ∧
    (∀ s, parseVrsId s = none ↔ isValidVrsId s = false) ∧
    (∀ s pr, parseVrsId s = some pr →
      s = "ga4gh:VA:" ++ pr.chromosome ++ ":" ++ pr.digest ∧
      pr.chromosome ≠ "" ∧ (∀ ch ∈ pr.chromosome.data, ch ≠ ':') ∧ pr.type = "VA") ∧
    (∀ s, getChromosomeFromVrsId s = none ↔ isValidVrsId s = false) ∧
    (∀ s, getSqlTableForVariant s = none ↔ isValidVrsId s = false) ∧
    (∀ s, buildVariantQuery s = none ↔ isValidVrsId s = false) := by
  refine ⟨by decide, parse_none_iff, ?_, ?_, ?_, ?_⟩
  · intro s pr hp
    obtain ⟨hm, ht⟩ := (parse_some_iff s pr).mp hp
    obtain ⟨hs, hcne, hcol, _, _⟩ := matchVrsId_sound s pr.chromosome pr.digest hm
    refine ⟨hs, ?_, hcol, ht⟩
    intro h0
    exact hcne (by simp [h0])
  · intro s
    rw [getChrom_none_iff]
    exact parse_none_iff s
  · intro s
    rw [getSqlTable_none_iff]
    exact parse_none_iff s
  · intro s
    rw [buildq_none_iff]
    exact parse_none_iff s

/-- C4 witness: the parse-success contract applied at a concrete identifier. -/
theorem claim4_validation_contracts_witness :
    ("ga4gh:VA:7:abc" : String) = "ga4gh:VA:" ++
      (ParsedVrsId.mk "7" "abc" "VA").chromosome ++ ":" ++
      (ParsedVrsId.mk "7" "abc" "VA").digest ∧
    (ParsedVrsId.mk "7" "abc" "VA").chromosome ≠ "" ∧
    (∀ ch ∈ (ParsedVrsId.mk "7" "abc" "VA").chromosome.data, ch ≠ ':') ∧
    (ParsedVrsId.mk "7" "abc" "VA").type = "VA" :=
  claim4_validation_contracts.2.2.1 "ga4gh:VA:7:abc" ⟨"7", "abc", "VA"⟩ (by decide)

/-- C5 counterexample: the claim's own example `ga4gh:XX:7:digest` is in fact
rejected by `isValidVrsId` (and by `parseVrsId`): the regex head requires the
literal tag `VA`. -/
theorem claim5_tag_cex :
    isValidVrsId "ga4gh:XX:7:digest" = false ∧
    parseVrsId "ga4gh:XX:7:digest" = none := by
  refine ⟨by decide, by decide⟩

/-- C5 amended: the fixed regex head `ga4gh:VA:` does check the tag `VA`
literally, so non-`VA` tags are rejected; on every successfully parsed
identifier the hardcoded returned `type` is `VA`, which coincides with the
matched literal since the input must start with `ga4gh:VA:`. -/
theorem claim5_tag_checked :
    isValidVrsId "ga4gh:XX:7:digest" = false ∧
    (∀ s pr, parseVrsId s = some pr →
      pr.type = "VA" ∧ ∃ t, s = "ga4gh:VA:" ++ t) := by
  refine ⟨by decide, ?_⟩
  intro s pr hp
  obtain ⟨hm, ht⟩ := (parse_some_iff s pr).mp hp
  obtain ⟨hs, _, _, _, _⟩ := matchVrsId_sound s pr.chromosome pr.digest hm
  refine ⟨ht, pr.chromosome ++ ":" ++ pr.digest, ?_⟩
  rw [hs]
  simp [String.append_assoc]

/-- C5 amended, witness at a concrete identifier. -/
theorem claim5_tag_checked_witness :
    (ParsedVrsId.mk "7" "abc" "VA").type = "VA" ∧
    ∃ t, ("ga4gh:VA:7:abc" : String) = "ga4gh:VA:" ++ t :=
  claim5_tag_checked.2 "ga4gh:VA:7:abc" ⟨"7", "abc", "VA"⟩ (by decide)

/-- C6 counterexample: a special-form identifier whose interpolated position
contains a newline is rejected by `isValidVrsId` (the regex dot matches no
line terminator), so not every special-form identifier validates. -/
theorem claim6_special_cex :
    generateVrsId "chr7" "1\n" "A" "*" = "ga4gh:VA:SPECIAL:7-1\n-A-*" ∧
    isValidVrsId "ga4gh:VA:SPECIAL:7-1\n-A-*" = false := by
  refine ⟨by decide, by decide⟩

/-- C6 amended: for a wildcard allele, `generateVrsId` returns the verbatim
special form with no hashing; such an identifier validates whenever its
interpolated tail contains no line terminator (in particular for all ordinary
chromosome/position/allele text). -/
theorem claim6_special_form (c p r a s : String) (h : r = "*" ∨ a = "*") :
    generateVrsId c p r a s =
      "ga4gh:VA:SPECIAL:" ++ normalizeChromosome c ++ "-" ++ p ++ "-" ++ r ++ "-" ++ a ∧
    ((normalizeChromosome c ++ "-" ++ p ++ "-" ++ r ++ "-" ++ a).data.all notLineTerm = true →
      isValidVrsId (generateVrsId c p r a s) = true) := by
  have hgen := generate_wild c p r a s h
  refine ⟨hgen, fun hterm => ?_⟩
  rw [hgen]
  have heq : "ga4gh:VA:SPECIAL:" ++ normalizeChromosome c ++ "-" ++ p ++ "-" ++ r ++ "-" ++ a
      = "ga4gh:VA:" ++ ("SPECIAL" : String) ++ ":"
        ++ (normalizeChromosome c ++ "-" ++ p ++ "-" ++ r ++ "-" ++ a) := by
    apply String.ext
    simp [String.data_append]
  rw [heq]
  apply isValid_of_match _ "SPECIAL" _
  apply matchVrsId_build
  · decide
  · decide
  · intro h0
    have hlen := congrArg List.length h0
    simp [String.data_append] at hlen
  · exact hterm

/-- C6 amended, witness at a concrete wildcard input. -/
theorem claim6_special_form_witness :
    generateVrsId "chr7" "1" "*" "A" "GRCh38" =
      "ga4gh:VA:SPECIAL:" ++ normalizeChromosome "chr7" ++ "-" ++ "1" ++ "-" ++ "*" ++ "-" ++ "A" ∧
    ((normalizeChromosome "chr7" ++ "-" ++ "1" ++ "-" ++ "*" ++ "-" ++ "A").data.all
        notLineTerm = true →
      isValidVrsId (generateVrsId "chr7" "1" "*" "A" "GRCh38") = true) :=
  claim6_special_form "chr7" "1" "*" "A" "GRCh38" (Or.inl rfl)

/-- C7: for every non-wildcard input, the digest segment of the generated
identifier has exactly 32 characters, all from the URL-safe base64 alphabet
`[A-Za-z0-9_-]`. -/
theorem claim7_digest_shape (c p r a s : String) (hr : r ≠ "*") (ha : a ≠ "*") :
    ∃ d : String, generateVrsId c p r a s = "ga4gh:VA:" ++ normalizeChromosome c ++ ":" ++ d ∧
      d.data.length = 32 ∧ ∀ ch ∈ d.data, ch ∈ urlSafeAlphabet :=
  generate_decomp c p r a s hr ha

/-- C7 witness at the concrete C1 input. -/
theorem claim7_digest_shape_witness :
    ∃ d : String, generateVrsId "chr7" "55174772" "GGAATTAAGAGAAGC" "" "GRCh38" =
      "ga4gh:VA:" ++ normalizeChromosome "chr7" ++ ":" ++ d ∧
      d.data.length = 32 ∧ ∀ ch ∈ d.data, ch ∈ urlSafeAlphabet :=
  claim7_digest_shape "chr7" "55174772" "GGAATTAAGAGAAGC" "" "GRCh38" (by decide) (by decide)

/-- C8: on every valid identifier, the SQL table name is `variants_chr`
followed by the lowercased parsed chromosome, and the lookup query is the
template over that table with `WHERE id = @vrsId`, `AND chromosome =
@chromosome`, and parameters binding `vrsId` to the identifier itself and
`chromosome` to the parsed chromosome. -/
theorem claim8_routing (id : String) (h : isValidVrsId id = true) :
    ∃ chrom, getChromosomeFromVrsId id = some chrom ∧
      getSqlTableForVariant id = some ("variants_chr" ++ jsToLowerCase chrom) ∧
      ∃ q, buildVariantQuery id = some q ∧
        q.params.vrsId = id ∧ q.params.chromosome = chrom ∧
        q.query = "\n    SELECT *\n    FROM public." ++ ("variants_chr" ++ jsToLowerCase chrom)
          ++ "\n    WHERE id = @vrsId\n    AND chromosome = @chromosome\n  " ∧
        ("FROM public." ++ ("variants_chr" ++ jsToLowerCase chrom)).data <:+: q.query.data ∧
        ("WHERE id = @vrsId" : String).data <:+: q.query.data ∧
        ("AND chromosome = @chromosome" : String).data <:+: q.query.data := by
  obtain ⟨c, d, hm⟩ := (isValid_iff_match id).mp h
  have hp : parseVrsId id = some ⟨c, d, "VA"⟩ := (parse_some_iff id ⟨c, d, "VA"⟩).mpr ⟨hm, rfl⟩
  have hgc : getChromosomeFromVrsId id = some c := by
    unfold getChromosomeFromVrsId
    rw [hp]
    rfl
  have hgt : getSqlTableForVariant id = some ("variants_chr" ++ jsToLowerCase c) := by
    unfold getSqlTableForVariant
    rw [hgc]
    rfl
  have e1 : "\n    SELECT *\n    FROM public." ++ ("variants_chr" ++ jsToLowerCase c)
      ++ "\n    WHERE id = @vrsId\n    AND chromosome = @chromosome\n  "
      = "\n    SELECT *\n    " ++ ("FROM public." ++ ("variants_chr" ++ jsToLowerCase c))
      ++ "\n    WHERE id = @vrsId\n    AND chromosome = @chromosome\n  " := by
    rw [show ("\n    SELECT *\n    FROM public." : String)
        = "\n    SELECT *\n    " ++ "FROM public." from by decide]
    simp only [← String.append_assoc]
  have e2 : "\n    SELECT *\n    FROM public." ++ ("variants_chr" ++ jsToLowerCase c)
      ++ "\n    WHERE id = @vrsId\n    AND chromosome = @chromosome\n  "
      = ("\n    SELECT *\n    FROM public." ++ ("variants_chr" ++ jsToLowerCase c)
        ++ "\n    ") ++ "WHERE id = @vrsId" ++ "\n    AND chromosome = @chromosome\n  " := by
    rw [show ("\n    WHERE id = @vrsId\n    AND chromosome = @chromosome\n  " : String)
        = "\n    " ++ "WHERE id = @vrsId" ++ "\n    AND chromosome = @chromosome\n  "
        from by decide]
    simp only [← String.append_assoc]
  have e3 : "\n    SELECT *\n    FROM public." ++ ("variants_chr" ++ jsToLowerCase c)
      ++ "\n    WHERE id = @vrsId\n    AND chromosome = @chromosome\n  "
      = ("\n    SELECT *\n    FROM public." ++ ("variants_chr" ++ jsToLowerCase c)
        ++ "\n    WHERE id = @vrsId\n    ") ++ "AND chromosome = @chromosome" ++ "\n  " := by
    rw [show ("\n    WHERE id = @vrsId\n    AND chromosome = @chromosome\n  " : String)
        = "\n    WHERE id = @vrsId\n    " ++ "AND chromosome = @chromosome" ++ "\n  "
        from by decide]
    simp only [← String.append_assoc]
  refine ⟨c, hgc, hgt,
    ⟨"\n    SELECT *\n    FROM public." ++ ("variants_chr" ++ jsToLowerCase c)
      ++ "\n    WHERE id = @vrsId\n    AND chromosome = @chromosome\n  ", ⟨id, c⟩⟩,
    ?_, rfl, rfl, rfl, substr_infix _ _ _ _ e1, substr_infix _ _ _ _ e2,
    substr_infix _ _ _ _ e3⟩
  unfold buildVariantQuery
  rw [hgt, hgc]
  rfl

/-- C8 witness at a concrete valid identifier. -/
theorem claim8_routing_witness :
    ∃ chrom, getChromosomeFromVrsId "ga4gh:VA:X:abc" = some chrom ∧
      getSqlTableForVariant "ga4gh:VA:X:abc" = some ("variants_chr" ++ jsToLowerCase chrom) ∧
      ∃ q, buildVariantQuery "ga4gh:VA:X:abc" = some q ∧
        q.params.vrsId = "ga4gh:VA:X:abc" ∧ q.params.chromosome = chrom ∧
        q.query = "\n    SELECT *\n    FROM public." ++ ("variants_chr" ++ jsToLowerCase chrom)
          ++ "\n    WHERE id = @vrsId\n    AND chromosome = @chromosome\n  " ∧
        ("FROM public." ++ ("variants_chr" ++ jsToLowerCase chrom)).data <:+: q.query.data ∧
        ("WHERE id = @vrsId" : String).data <:+: q.query.data ∧
        ("AND chromosome = @chromosome" : String).data <:+: q.query.data :=
  claim8_routing "ga4gh:VA:X:abc" (by decide)

/-- C9: the `assembly` parameter of `generateVrsId` (defaulting to `GRCh38`)
is never read: any two assembly strings give identical output. -/
theorem claim9_assembly_unused (c p r a s1 s2 : String) :
    generateVrsId c p r a s1 = generateVrsId c p r a s2 := rfl

/-- C10: `normalizeChromosome` maps `chr` to the empty string, and for
non-wildcard alleles the generated identifier has an empty chromosome slot
(`ga4gh:VA::<digest>`), which the library's own validator rejects; parse and
all derived functions fail on it. -/
theorem claim10_empty_chromosome :
    normalizeChromosome "chr" = "" ∧
    ∀ p r a : String, r ≠ "*" → a ≠ "*" →
      (∃ d, generateVrsId "chr" p r a = "ga4gh:VA::" ++ d) ∧
      isValidVrsId (generateVrsId "chr" p r a) = false ∧
      parseVrsId (generateVrsId "chr" p r a) = none ∧
      getChromosomeFromVrsId (generateVrsId "chr" p r a) = none ∧
      getSqlTableForVariant (generateVrsId "chr" p r a) = none ∧
      buildVariantQuery (generateVrsId "chr" p r a) = none := by
  refine ⟨by decide, ?_⟩
  intro p r a hr ha
  obtain ⟨d, hgen, hdl, hdm⟩ := generate_decomp "chr" p r a "GRCh38" hr ha
  rw [show normalizeChromosome "chr" = "" from by decide] at hgen
  have hgen2 : generateVrsId "chr" p r a = "ga4gh:VA::" ++ d := by
    rw [hgen]
    apply String.ext
    simp [String.data_append, dataVrsHeadColon, dataVrsHead, dataColon]
  have hvalid : isValidVrsId (generateVrsId "chr" p r a) = false := by
    rw [hgen2]
    exact isValid_eq_false_of_match_none _ (matchVrsId_empty_chrom d)
  refine ⟨⟨d, hgen2⟩, hvalid, ?_, ?_, ?_, ?_⟩
  · exact (parse_none_iff _).mpr hvalid
  · exact (getChrom_none_iff _).mpr ((parse_none_iff _).mpr hvalid)
  · exact (getSqlTable_none_iff _).mpr ((parse_none_iff _).mpr hvalid)
  · exact (buildq_none_iff _).mpr ((parse_none_iff _).mpr hvalid)

/-- C10 witness at a concrete non-wildcard input. -/
theorem claim10_empty_chromosome_witness :
    (∃ d, generateVrsId "chr" "1" "A" "T" = "ga4gh:VA::" ++ d) ∧
    isValidVrsId (generateVrsId "chr" "1" "A" "T") = false ∧
    parseVrsId (generateVrsId "chr" "1" "A" "T") = none ∧
    getChromosomeFromVrsId (generateVrsId "chr" "1" "A" "T") = none ∧
    getSqlTableForVariant (generateVrsId "chr" "1" "A" "T") = none ∧
    buildVariantQuery (generateVrsId "chr" "1" "A" "T") = none :=
  claim10_empty_chromosome.2 "1" "A" "T" (by decide) (by decide)

end VrsTs
